import Mathlib

/-
Verification of the streaming buffering / segmentation / turn-pipeline policy
of the Twilio-to-AI voice bridge.

The repository contains four variants of the same websocket server:
  * `websocket_server.js` — stop-triggered pipeline with try/catch/finally,
    WAV encoding (`saveWavFile`), fallback media + stop on failure;
  * `part_000` — minimal stop-triggered variant, no error handling at all;
  * `part_001` — real-time (time-windowed) variant with a 3000 ms timer,
    an 8000-byte minimum segment length, and per-segment pipeline runs;
  * `part_002` — stop-triggered variant sending only a stop event on failure.

Bytes are modelled as `List Nat`; the external HTTP services (Whisper
transcription, GPT completion, ElevenLabs synthesis) as oracles returning
`Except`.  Library calls with documented semantics (`Buffer.toString('base64')`)
are implemented; Node's lenient `Buffer.from(s, 'base64')` is kept abstract as
a total function parameter, since it never throws for any string input.
-/

namespace AutoSalesCall

/-- Raw audio bytes (each entry one byte of a Node `Buffer`). -/
abbrev Bytes := List Nat

/-- The standard base64 alphabet, as used by `Buffer.toString('base64')`. -/
def base64Alphabet : String :=
  "ABCDEFGHIJKLMNOPQRSTUVWXYZabcdefghijklmnopqrstuvwxyz0123456789+/"

/-- Character for a 6-bit group. -/
def b64Char (n : Nat) : Char := base64Alphabet.toList.getD n 'A'

/-- RFC 4648 base64 encoding with padding, modelling
`Buffer.toString('base64')`. -/
def base64Encode : Bytes → String
  | a :: b :: c :: rest =>
      String.mk [b64Char (a % 256 / 4), b64Char (a % 4 * 16 + b % 256 / 16),
        b64Char (b % 16 * 4 + c % 256 / 64), b64Char (c % 64)] ++ base64Encode rest
  | [a, b] =>
      String.mk [b64Char (a % 256 / 4), b64Char (a % 4 * 16 + b % 256 / 16),
        b64Char (b % 16 * 4), '=']
  | [a] => String.mk [b64Char (a % 256 / 4), b64Char (a % 4 * 16), '=', '=']
  | [] => ""

/-- Bytes of an ASCII string (`Buffer.from(text)` for ASCII text). -/
def strBytes (s : String) : Bytes := s.toList.map Char.toNat

/-- The canned apology sent by `websocket_server.js` on pipeline failure. -/
def apology : String := "Sorry, something went wrong."

/-- The emptiness checks `!transcript.trim()` and
`transcript.trim().length === 0` of the sources: a string trims to the
empty string exactly when every character is whitespace, and this
formulation is structurally recursive, so concrete runs evaluate. -/
def isBlank (s : String) : Bool := s.toList.all fun c => c.isWhitespace

/-- The three external HTTP services, as result oracles: `Except.error`
models a thrown/rejected call (network error, non-2xx), `Except.ok` the
returned value. -/
structure Services where
  transcribe : Bytes → Except String String
  complete : String → Except String String
  synthesize : String → Except String Bytes

/-- Outbound websocket events (`ws.send` payloads). -/
inductive OutEvent where
  | media (payload : String)
  | stop (reason : String)
deriving DecidableEq

/-- Inbound events after JSON parsing and base64 decoding of the payload. -/
inductive InEvent where
  | start
  | media (payload : Bytes)
  | stop
deriving DecidableEq

/-- The two fallback events of the `websocket_server.js` catch block:
a media event carrying the base64-encoded apology text, then a stop event
with reason internal_error. -/
def wsFallback : List OutEvent :=
  [OutEvent.media (base64Encode (strBytes apology)), OutEvent.stop "internal_error"]

/-- Observable outcome of one stop-triggered turn in `websocket_server.js`. -/
structure WsTurn where
  calledComplete : Bool
  calledSynthesize : Bool
  sent : List OutEvent
  fileAbsent : Bool
  socketClosed : Bool
deriving DecidableEq

/-- The stop branch of `websocket_server.js` (lines 43-96): save WAV, then
transcribe / complete / synthesize with emptiness checks, try/catch emitting
the fallback events, finally removing the temp file.  The socket is never
closed by the handler. -/
def runWsStop (svc : Services) (raw : Bytes) : WsTurn :=
  match svc.transcribe raw with
  | Except.error _ => ⟨false, false, wsFallback, true, false⟩
  | Except.ok t =>
    if isBlank t = true then ⟨false, false, wsFallback, true, false⟩
    else match svc.complete t with
      | Except.error _ => ⟨true, false, wsFallback, true, false⟩
      | Except.ok r =>
        if isBlank r = true then ⟨true, false, wsFallback, true, false⟩
        else match svc.synthesize r with
          | Except.error _ => ⟨true, true, wsFallback, true, false⟩
          | Except.ok audio =>
            if audio.length = 0 then ⟨true, true, wsFallback, true, false⟩
            else ⟨true, true, [OutEvent.media (base64Encode audio)], true, false⟩

/-- Observable outcome of one stop-triggered turn in `part_000`. -/
structure P000Turn where
  sent : List OutEvent
  fileAbsent : Bool
  crashed : Bool
deriving DecidableEq

/-- The stop branch of `part_000` (lines 30-50): the raw buffer is written
to the temp file, then the three calls run with no try/catch and no
emptiness checks; `fs.unlinkSync` runs only after a fully successful send,
so any rejected call leaves the file behind (`crashed` marks the unhandled
rejection escaping the handler). -/
def runP000Stop (svc : Services) (raw : Bytes) : P000Turn :=
  match svc.transcribe raw with
  | Except.error _ => ⟨[], false, true⟩
  | Except.ok t =>
    match svc.complete t with
    | Except.error _ => ⟨[], false, true⟩
    | Except.ok r =>
      match svc.synthesize r with
      | Except.error _ => ⟨[], false, true⟩
      | Except.ok audio => ⟨[OutEvent.media (base64Encode audio)], true, false⟩

/-- Timer interval of `part_001` (ms). -/
def INTERVAL : Nat := 3000

/-- Minimum segment byte length of `part_001`. -/
def MIN_AUDIO_LENGTH : Nat := 8000

/-- Observable outcome of one `processBuffer` run in `part_001`, given the
already-concatenated chunk. -/
structure RTTurn where
  calledTranscribe : Bool
  calledComplete : Bool
  calledSynthesize : Bool
  sent : List OutEvent
  fileCreated : Bool
  fileAbsent : Bool
deriving DecidableEq

/-- The pipeline part of `processBuffer` in `part_001` (lines 31-65), run on
the concatenated chunk after the buffer has been cleared: segments below
`MIN_AUDIO_LENGTH` are dropped before the file is written; an empty-trim
transcript returns silently; there is no emptiness check on the completion
reply or the synthesized audio; the catch only logs; finally removes the
file. -/
def processBufferPipeline (svc : Services) (chunk : Bytes) : RTTurn :=
  if chunk.length < MIN_AUDIO_LENGTH then ⟨false, false, false, [], false, true⟩
  else
    match svc.transcribe chunk with
    | Except.error _ => ⟨true, false, false, [], true, true⟩
    | Except.ok t =>
      if isBlank t = true then ⟨true, false, false, [], true, true⟩
      else match svc.complete t with
        | Except.error _ => ⟨true, true, false, [], true, true⟩
        | Except.ok r =>
          match svc.synthesize r with
          | Except.error _ => ⟨true, true, true, [], true, true⟩
          | Except.ok audio =>
            ⟨true, true, true, [OutEvent.media (base64Encode audio)], true, true⟩

/-- A segment taken out of the `part_001` session buffer by `processBuffer`:
either handed to the pipeline (`processed`, length at least the minimum) or
dropped by the minimum-length check (`discarded`). -/
inductive Extraction where
  | processed (s : Bytes)
  | discarded (s : Bytes)
deriving DecidableEq

/-- The bytes of an extraction. -/
def Extraction.seg : Extraction → Bytes
  | Extraction.processed s => s
  | Extraction.discarded s => s

/-- Whether the extraction reached the pipeline. -/
def Extraction.isProcessed : Extraction → Bool
  | Extraction.processed _ => true
  | Extraction.discarded _ => false

/-- Whether the extraction was dropped by the minimum-length check. -/
def Extraction.isDiscarded : Extraction → Bool
  | Extraction.processed _ => false
  | Extraction.discarded _ => true

/-- Per-connection state of `part_001` (lines 22-30): the chunk buffer, the
last media arrival time, whether `clearInterval` has run, and whether the
socket has closed. -/
structure RTState where
  buffer : List Bytes
  lastChunkTime : Nat
  intervalCleared : Bool
  closed : Bool
deriving DecidableEq

/-- Initial `part_001` session state at connection time `t0`. -/
def rtInit (t0 : Nat) : RTState := ⟨[], t0, false, false⟩

/-- Events driving one `part_001` session: an inbound message (with its
arrival time; `none` is a message `JSON.parse` rejects), a periodic timer
fire at a given time, or the socket close. -/
inductive RTEvent where
  | msg (now : Nat) (m : Option InEvent)
  | timerFire (now : Nat)
  | close
deriving DecidableEq

/-- The buffer-management part of `processBuffer` in `part_001`
(lines 31-36): an empty buffer returns; otherwise the chunks are
concatenated, the buffer is cleared, and the chunk is discarded when
shorter than `MIN_AUDIO_LENGTH`, processed otherwise. -/
def procBuf (s : RTState) : RTState × List Extraction :=
  if s.buffer.isEmpty then (s, [])
  else if s.buffer.flatten.length < MIN_AUDIO_LENGTH then
    ({ s with buffer := [] }, [Extraction.discarded s.buffer.flatten])
  else
    ({ s with buffer := [] }, [Extraction.processed s.buffer.flatten])

/-- One step of the `part_001` session.  The timer callback (lines 67-70)
does nothing once `clearInterval` has run, and also returns when more than
`INTERVAL` ms have passed since the last media chunk.  The message handler
(lines 72-96) drops bad JSON, appends decoded media payloads and updates
`lastChunkTime`, and on stop clears the interval and runs `processBuffer`;
no messages are delivered after the socket has closed.  The close handler
(lines 98-101) clears the interval. -/
def rtStep (s : RTState) : RTEvent → RTState × List Extraction
  | RTEvent.close => ({ s with intervalCleared := true, closed := true }, [])
  | RTEvent.timerFire now =>
      if s.intervalCleared then (s, [])
      else if now - s.lastChunkTime > INTERVAL then (s, [])
      else procBuf s
  | RTEvent.msg now m =>
      if s.closed then (s, [])
      else
        match m with
        | none => (s, [])
        | some InEvent.start => (s, [])
        | some (InEvent.media p) =>
            ({ s with buffer := s.buffer ++ [p], lastChunkTime := now }, [])
        | some InEvent.stop => procBuf { s with intervalCleared := true }

/-- Run a `part_001` session over a list of events, collecting every
extraction in order. -/
def rtRun (s : RTState) : List RTEvent → RTState × List Extraction
  | [] => (s, [])
  | e :: es =>
      ((rtRun (rtStep s e).1 es).1, (rtStep s e).2 ++ (rtRun (rtStep s e).1 es).2)

/-- The decoded media payloads of a trace, in arrival order. -/
def mediaPayloads : List RTEvent → List Bytes
  | [] => []
  | RTEvent.msg _ (some (InEvent.media p)) :: es => p :: mediaPayloads es
  | _ :: es => mediaPayloads es

/-- Events that may precede the stop message: anything except a close and
except the stop itself. -/
def isPreStopEvent : RTEvent → Bool
  | RTEvent.close => false
  | RTEvent.msg _ (some InEvent.stop) => false
  | _ => true

/-- The message loop of `websocket_server.js` at the buffering level: media
payloads (already decoded) are pushed onto `audioChunks`; on stop the
concatenation of the chunks is delivered to the WAV-encode-and-transcribe
step (unconditionally) and the chunk list is reset.  Returns the final chunk
list and the byte sequences delivered to transcription, one per stop. -/
def wsRun (chunks : List Bytes) : List (Option InEvent) → List Bytes × List Bytes
  | [] => (chunks, [])
  | m :: ms =>
    match m with
    | some (InEvent.media p) => wsRun (chunks ++ [p]) ms
    | some InEvent.stop => ((wsRun [] ms).1, chunks.flatten :: (wsRun [] ms).2)
    | _ => wsRun chunks ms

/-- The optional media object of a parsed inbound message. -/
structure MediaField where
  payload : Option String
deriving DecidableEq

/-- A parsed inbound JSON message: optional event discriminator, optional
media object with optional payload string. -/
structure ParsedMsg where
  event : Option String
  media : Option MediaField
deriving DecidableEq

/-- An inbound websocket message: either one `JSON.parse` rejects, or a
parsed object. -/
inductive InboundMsg where
  | notJson
  | parsed (m : ParsedMsg)
deriving DecidableEq

/-- How the message handler disposes of one inbound message. -/
inductive HandlerResult where
  | droppedLogged
  | handled (newChunks : List Bytes)
  | uncaught
deriving DecidableEq

/-- The `websocket_server.js` message handler (lines 22-41) at the parsing
level, with the base64 decoder (`Buffer.from(s, 'base64')`, total, never
throwing) abstract.  Bad JSON is caught and logged; in the media branch
`parsed.media.payload` throws an uncaught TypeError when the media object
is missing, and `Buffer.from(undefined, 'base64')` throws when the payload
field is missing; otherwise the decoded bytes are appended. -/
def wsHandleMessage (decode : String → Bytes) (chunks : List Bytes) :
    InboundMsg → HandlerResult
  | InboundMsg.notJson => HandlerResult.droppedLogged
  | InboundMsg.parsed p =>
    if p.event = some "start" then HandlerResult.handled chunks
    else if p.event = some "media" then
      match p.media with
      | none => HandlerResult.uncaught
      | some mf =>
        match mf.payload with
        | none => HandlerResult.uncaught
        | some s => HandlerResult.handled (chunks ++ [decode s])
    else HandlerResult.handled chunks

/-- The `part_000` message handler (lines 20-27): `JSON.parse` is not
guarded, so a non-JSON message throws out of the handler; the media branch
has the same unguarded field accesses as the main variant. -/
def p000HandleMessage (decode : String → Bytes) (chunks : List Bytes) :
    InboundMsg → HandlerResult
  | InboundMsg.notJson => HandlerResult.uncaught
  | InboundMsg.parsed p =>
    if p.event = some "media" then
      match p.media with
      | none => HandlerResult.uncaught
      | some mf =>
        match mf.payload with
        | none => HandlerResult.uncaught
        | some s => HandlerResult.handled (chunks ++ [decode s])
    else HandlerResult.handled chunks

/-- Little-endian signed 16-bit interpretation of a byte pair, as the
`Int16Array` view in `saveWavFile` reads it. -/
def toInt16 (lo hi : Nat) : Int :=
  let v := (lo % 256 + 256 * (hi % 256)) % 65536
  if v < 32768 then (v : Int) else (v : Int) - 65536

/-- The samples the `Int16Array` view of `saveWavFile` exposes: byte pairs
in order; the view length is `ToIndex(rawBuffer.length / 2)`, which
truncates the fractional half, so a trailing odd byte is not part of any
sample. -/
def pcmSamples : Bytes → List Int
  | lo :: hi :: rest => toInt16 lo hi :: pcmSamples rest
  | _ => []

/-- Sample rate fixed in `saveWavFile`. -/
def sampleRate : Nat := 16000

/-- `saveWavFile` of `websocket_server.js` (lines 101-119) up to the channel
data handed to the WAV encoder: builds the `Int16Array` view of length
`ToIndex(length / 2)` (the error branch is the ES constructor's bounds
check, which cannot fire since the truncated length always fits) and
normalizes each sample to `[-1, 1]` by dividing by 32768 (exact, hence the
rational model). -/
def saveWavFile (raw : Bytes) : Except String (List ℚ) :=
  let len := raw.length / 2
  if raw.length < 2 * len then Except.error "RangeError"
  else Except.ok ((pcmSamples raw).map fun v => (v : ℚ) / 32768)

/-- `processBuffer`'s buffer management conserves bytes: the extracted
segments concatenate to the old buffer contents, the buffer ends empty, and
the flags are untouched. -/
lemma procBuf_spec (s : RTState) :
    (((procBuf s).2.map Extraction.seg).flatten = s.buffer.flatten)
    ∧ (procBuf s).1.buffer = []
    ∧ (procBuf s).1.closed = s.closed
    ∧ (procBuf s).1.intervalCleared = s.intervalCleared
    ∧ (procBuf s).1.lastChunkTime = s.lastChunkTime := by
  unfold procBuf
  by_cases hb : s.buffer.isEmpty = true
  · have hb' : s.buffer = [] := by simpa using hb
    rw [if_pos hb]
    simp [hb']
  · rw [if_neg hb]
    by_cases hlen : s.buffer.flatten.length < MIN_AUDIO_LENGTH
    · rw [if_pos hlen]; simp [Extraction.seg]
    · rw [if_neg hlen]; simp [Extraction.seg]

/-- Every extraction `processBuffer` makes respects the minimum-length
policy: discarded iff below the minimum. -/
lemma procBuf_sizes (s : RTState) :
    ∀ x ∈ (procBuf s).2,
      (x.isDiscarded = true → x.seg.length < MIN_AUDIO_LENGTH)
      ∧ (x.isProcessed = true → MIN_AUDIO_LENGTH ≤ x.seg.length) := by
  unfold procBuf
  by_cases hb : s.buffer.isEmpty = true
  · rw [if_pos hb]; simp
  · rw [if_neg hb]
    by_cases hlen : s.buffer.flatten.length < MIN_AUDIO_LENGTH
    · rw [if_pos hlen]
      simp only [List.mem_singleton]
      rintro x rfl
      exact ⟨fun _ => hlen, by simp [Extraction.isProcessed]⟩
    · rw [if_neg hlen]
      simp only [List.mem_singleton]
      rintro x rfl
      exact ⟨by simp [Extraction.isDiscarded], fun _ => Nat.le_of_not_lt hlen⟩

/-- Every extraction any step makes respects the minimum-length policy. -/
lemma rtStep_sizes (s : RTState) (e : RTEvent) :
    ∀ x ∈ (rtStep s e).2,
      (x.isDiscarded = true → x.seg.length < MIN_AUDIO_LENGTH)
      ∧ (x.isProcessed = true → MIN_AUDIO_LENGTH ≤ x.seg.length) := by
  cases e with
  | close => simp [rtStep]
  | timerFire now =>
      by_cases h1 : s.intervalCleared
      · simp [rtStep, h1]
      · by_cases h2 : now - s.lastChunkTime > INTERVAL
        · simp [rtStep, h1, h2]
        · simpa [rtStep, h1, h2] using procBuf_sizes s
  | msg now m =>
      by_cases hc : s.closed
      · simp [rtStep, hc]
      · cases m with
        | none => simp [rtStep, hc]
        | some ie =>
            cases ie with
            | start => simp [rtStep, hc]
            | media p => simp [rtStep, hc]
            | stop => simpa [rtStep, hc] using
                procBuf_sizes { s with intervalCleared := true }

/-- Every extraction a whole run makes respects the minimum-length policy. -/
lemma rtRun_sizes (es : List RTEvent) : ∀ (s : RTState),
    ∀ x ∈ (rtRun s es).2,
      (x.isDiscarded = true → x.seg.length < MIN_AUDIO_LENGTH)
      ∧ (x.isProcessed = true → MIN_AUDIO_LENGTH ≤ x.seg.length) := by
  induction es with
  | nil => intro s x hx; simp [rtRun] at hx
  | cons e es ih =>
      intro s x hx
      simp only [rtRun, List.mem_append] at hx
      rcases hx with hx | hx
      · exact rtStep_sizes s e x hx
      · exact ih (rtStep s e).1 x hx

/-- `mediaPayloads` distributes over cons. -/
lemma mediaPayloads_cons (e : RTEvent) (es : List RTEvent) :
    mediaPayloads (e :: es) = mediaPayloads [e] ++ mediaPayloads es := by
  cases e with
  | close => rfl
  | timerFire now => rfl
  | msg now m =>
      cases m with
      | none => rfl
      | some ie => cases ie <;> rfl

/-- Byte conservation for one pre-stop step on an open session: the
extracted segments plus the new buffer hold exactly the old buffer plus the
step's media payload, and the session stays open. -/
lemma preStop_step (s : RTState) (e : RTEvent) (hc : s.closed = false)
    (he : isPreStopEvent e = true) :
    (rtStep s e).1.closed = false
    ∧ ((rtStep s e).2.map Extraction.seg).flatten ++ (rtStep s e).1.buffer.flatten
        = s.buffer.flatten ++ (mediaPayloads [e]).flatten := by
  cases e with
  | close => simp [isPreStopEvent] at he
  | timerFire now =>
      by_cases h1 : s.intervalCleared
      · simp [rtStep, h1, mediaPayloads, hc]
      · by_cases h2 : now - s.lastChunkTime > INTERVAL
        · simp [rtStep, h1, h2, mediaPayloads, hc]
        · have hp := procBuf_spec s
          have hstep : rtStep s (RTEvent.timerFire now) = procBuf s := by
            simp [rtStep, h1, h2]
          rw [hstep]
          refine ⟨by rw [hp.2.2.1, hc], ?_⟩
          rw [hp.1, hp.2.1]
          simp [mediaPayloads]
  | msg now m =>
      cases m with
      | none => simp [rtStep, hc, mediaPayloads]
      | some ie =>
          cases ie with
          | start => simp [rtStep, hc, mediaPayloads]
          | media p => simp [rtStep, hc, mediaPayloads]
          | stop => simp [isPreStopEvent] at he

/-- Byte conservation for a pre-stop run on an open session. -/
lemma preStop_run (es : List RTEvent) : ∀ (s : RTState), s.closed = false →
    (∀ e ∈ es, isPreStopEvent e = true) →
    (rtRun s es).1.closed = false
    ∧ ((rtRun s es).2.map Extraction.seg).flatten ++ (rtRun s es).1.buffer.flatten
        = s.buffer.flatten ++ (mediaPayloads es).flatten := by
  induction es with
  | nil => intro s hc _; simp [rtRun, mediaPayloads, hc]
  | cons e es ih =>
      intro s hc hall
      have he : isPreStopEvent e = true := hall e (List.mem_cons_self e es)
      have hstep := preStop_step s e hc he
      have hrest := ih (rtStep s e).1 hstep.1
        (fun x hx => hall x (List.mem_cons_of_mem e hx))
      refine ⟨by simpa [rtRun] using hrest.1, ?_⟩
      simp only [rtRun, List.map_append, List.flatten_append]
      rw [List.append_assoc, hrest.2, ← List.append_assoc, hstep.2,
        List.append_assoc, ← List.flatten_append, ← mediaPayloads_cons]

/-- Running a concatenated trace is running the pieces in sequence. -/
lemma rtRun_append (xs : List RTEvent) : ∀ (s : RTState) (ys : List RTEvent),
    rtRun s (xs ++ ys)
      = ((rtRun (rtRun s xs).1 ys).1, (rtRun s xs).2 ++ (rtRun (rtRun s xs).1 ys).2) := by
  induction xs with
  | nil => intro s ys; simp [rtRun]
  | cons e es ih => intro s ys; simp [rtRun, ih (rtStep s e).1 ys]

/-- Once the interval is cleared and the socket closed, every further event
is a no-op producing no extraction. -/
lemma rtStep_halted (s : RTState) (h1 : s.intervalCleared = true)
    (h2 : s.closed = true) (e : RTEvent) : rtStep s e = (s, []) := by
  cases e with
  | close =>
      cases s
      simp_all [rtStep]
  | timerFire now => simp [rtStep, h1]
  | msg now m => simp [rtStep, h2]

/-- Once the interval is cleared and the socket closed, a whole run is a
no-op producing no extraction. -/
lemma rtRun_halted (es : List RTEvent) (s : RTState) (h1 : s.intervalCleared = true)
    (h2 : s.closed = true) : rtRun s es = (s, []) := by
  induction es with
  | nil => rfl
  | cons e es ih => simp [rtRun, rtStep_halted s h1 h2 e, ih]

/-- In the stop-triggered variant, a run of media messages followed by stop
delivers exactly one byte sequence to transcription: the pending chunks
followed by all the payloads, concatenated in order. -/
lemma wsRun_media (ms : List Bytes) : ∀ (chunks : List Bytes),
    wsRun chunks ((ms.map fun p => some (InEvent.media p)) ++ [some InEvent.stop])
      = ([], [(chunks ++ ms).flatten]) := by
  induction ms with
  | nil => intro chunks; simp [wsRun]
  | cons p ps ih =>
      intro chunks
      have hstep :
          wsRun chunks (((p :: ps).map fun q => some (InEvent.media q)) ++ [some InEvent.stop])
            = wsRun (chunks ++ [p]) ((ps.map fun q => some (InEvent.media q)) ++ [some InEvent.stop]) := rfl
      rw [hstep, ih (chunks ++ [p])]
      simp

/-- A chunk at or above the minimum length always reaches the transcription
call of the `part_001` pipeline. -/
lemma processBufferPipeline_transcribes (svc : Services) (chunk : Bytes)
    (h : MIN_AUDIO_LENGTH ≤ chunk.length) :
    (processBufferPipeline svc chunk).calledTranscribe = true := by
  unfold processBufferPipeline
  rw [if_neg (by omega)]
  cases svc.transcribe chunk with
  | error e => rfl
  | ok t =>
      dsimp only
      by_cases ht : isBlank t = true
      · rw [if_pos ht]
      · rw [if_neg ht]
        cases svc.complete t with
        | error e => rfl
        | ok r =>
            dsimp only
            cases svc.synthesize r <;> rfl

/-- Transcription returning the empty string, other services succeeding. -/
def svcEmptyTranscript : Services :=
  ⟨fun _ => Except.ok "", fun _ => Except.ok "a reply", fun _ => Except.ok [1]⟩

/-- Completion returning the empty string, other services succeeding. -/
def svcEmptyReply : Services :=
  ⟨fun _ => Except.ok "hello", fun _ => Except.ok "", fun _ => Except.ok [7]⟩

/-- Synthesis returning a zero-length body, other services succeeding. -/
def svcZeroTTS : Services :=
  ⟨fun _ => Except.ok "hi", fun _ => Except.ok "ok", fun _ => Except.ok []⟩

/-- Transcription rejecting with a network failure. -/
def svcTranscribeError : Services :=
  ⟨fun _ => Except.error "network failure", fun _ => Except.ok "x", fun _ => Except.ok [1]⟩

/-- C1: for any sequence of media messages (with interleaved timer fires,
start messages and rejected-JSON messages) followed by a stop, the
time-windowed session's extracted segments concatenate, in arrival order,
to exactly the concatenation of all decoded payloads — no byte duplicated,
none dropped — the only segments withheld are discarded ones, each below
the minimum length, and every processed segment reaches the transcription
call; in the stop-triggered variant the single byte sequence delivered to
transcription is the full concatenation. -/
theorem claim1_delivered_bytes (t0 tstop : Nat) (es : List RTEvent)
    (hes : ∀ e ∈ es, isPreStopEvent e = true) :
    (((rtRun (rtInit t0) (es ++ [RTEvent.msg tstop (some InEvent.stop)])).2.map Extraction.seg).flatten
        = (mediaPayloads es).flatten
      ∧ (∀ x ∈ (rtRun (rtInit t0) (es ++ [RTEvent.msg tstop (some InEvent.stop)])).2,
          x.isDiscarded = true → x.seg.length < MIN_AUDIO_LENGTH)
      ∧ ∀ (svc : Services),
          ∀ x ∈ (rtRun (rtInit t0) (es ++ [RTEvent.msg tstop (some InEvent.stop)])).2,
            x.isProcessed = true → (processBufferPipeline svc x.seg).calledTranscribe = true)
    ∧ ∀ ms : List Bytes,
        (wsRun [] ((ms.map fun p => some (InEvent.media p)) ++ [some InEvent.stop])).2
          = [ms.flatten] := by
  constructor
  · have happ := rtRun_append es (rtInit t0) [RTEvent.msg tstop (some InEvent.stop)]
    have hpre := preStop_run es (rtInit t0) rfl hes
    set s1 := (rtRun (rtInit t0) es).1 with hs1
    have hstep : rtStep s1 (RTEvent.msg tstop (some InEvent.stop))
        = procBuf { s1 with intervalCleared := true } := by
      simp [rtStep, hpre.1]
    have hsingle : rtRun s1 [RTEvent.msg tstop (some InEvent.stop)]
        = ((procBuf { s1 with intervalCleared := true }).1,
            (procBuf { s1 with intervalCleared := true }).2) := by
      simp [rtRun, hstep]
    have hp := procBuf_spec { s1 with intervalCleared := true }
    refine ⟨?_, ?_, ?_⟩
    · rw [happ, hsingle]
      simp only [List.map_append, List.flatten_append]
      rw [hp.1]
      have hbuf : ({ s1 with intervalCleared := true } : RTState).buffer = s1.buffer := rfl
      rw [hbuf]
      simpa [rtInit] using hpre.2
    · intro x hx
      exact (rtRun_sizes (es ++ [RTEvent.msg tstop (some InEvent.stop)]) (rtInit t0) x hx).1
    · intro svc x hx hxp
      exact processBufferPipeline_transcribes svc x.seg
        ((rtRun_sizes (es ++ [RTEvent.msg tstop (some InEvent.stop)]) (rtInit t0) x hx).2 hxp)
  · intro ms
    rw [wsRun_media ms []]
    simp

/-- Witness for C1 at a concrete trace: one 3-byte media frame, then stop. -/
theorem claim1_delivered_bytes_witness :
    ((rtRun (rtInit 0) ([RTEvent.msg 3 (some (InEvent.media [1, 2, 3]))]
        ++ [RTEvent.msg 9 (some InEvent.stop)])).2.map Extraction.seg).flatten
      = (mediaPayloads [RTEvent.msg 3 (some (InEvent.media [1, 2, 3]))]).flatten :=
  (claim1_delivered_bytes 0 9 [RTEvent.msg 3 (some (InEvent.media [1, 2, 3]))] (by decide)).1.1

/-- C2 counterexample: a session receiving one non-empty media frame of a
single byte and then stop — the final flush discards the non-empty tail
segment instead of processing it through the pipeline. -/
theorem claim2_counterexample :
    (rtRun (rtInit 0) [RTEvent.msg 1 (some (InEvent.media [42])),
        RTEvent.msg 2 (some InEvent.stop)]).2 = [Extraction.discarded [42]]
    ∧ ((rtRun (rtInit 0) [RTEvent.msg 1 (some (InEvent.media [42])),
        RTEvent.msg 2 (some InEvent.stop)]).2.filter fun x => x.isProcessed) = [] := by
  decide

/-- C2 amended: under the time-windowed policy every extracted segment
below the minimum threshold is discarded and every processed segment meets
the threshold — on every extraction including the final flush at stop,
which therefore discards a non-empty tail shorter than the minimum instead
of processing it. -/
theorem claim2_min_length_policy (t0 : Nat) (es : List RTEvent) (x : Extraction)
    (hx : x ∈ (rtRun (rtInit t0) es).2) :
    (x.seg.length < MIN_AUDIO_LENGTH → x.isDiscarded = true)
    ∧ (x.isProcessed = true → MIN_AUDIO_LENGTH ≤ x.seg.length) := by
  have h := rtRun_sizes es (rtInit t0) x hx
  refine ⟨?_, h.2⟩
  intro hlen
  cases x with
  | processed s => exact absurd (h.2 rfl) (not_le_of_lt hlen)
  | discarded s => rfl

/-- Witness for C2 amended at the concrete single-byte trace. -/
theorem claim2_min_length_policy_witness :
    ((Extraction.discarded [42]).seg.length < MIN_AUDIO_LENGTH →
        (Extraction.discarded [42]).isDiscarded = true)
    ∧ ((Extraction.discarded [42]).isProcessed = true →
        MIN_AUDIO_LENGTH ≤ (Extraction.discarded [42]).seg.length) :=
  claim2_min_length_policy 0 [RTEvent.msg 1 (some (InEvent.media [42])),
    RTEvent.msg 2 (some InEvent.stop)] (Extraction.discarded [42]) (by decide)

/-- C9: once the socket closes, the interval timer is cleared and no event
after the close ever extracts a segment from the session's buffer — the
extraction trace of any run is already complete at the close. -/
theorem claim9_close_stops_timer (t0 : Nat) (pre post : List RTEvent) :
    (rtRun (rtInit t0) (pre ++ RTEvent.close :: post)).2
        = (rtRun (rtInit t0) (pre ++ [RTEvent.close])).2
    ∧ (rtRun (rtInit t0) (pre ++ [RTEvent.close])).1.intervalCleared = true
    ∧ (rtRun (rtInit t0) (pre ++ [RTEvent.close])).1.closed = true := by
  have h1 := rtRun_append pre (rtInit t0) [RTEvent.close]
  have h2 := rtRun_append pre (rtInit t0) (RTEvent.close :: post)
  set sp := (rtRun (rtInit t0) pre).1 with hsp
  have hclose : rtStep sp RTEvent.close
      = ({ sp with intervalCleared := true, closed := true }, []) := rfl
  have hhalt := rtRun_halted post { sp with intervalCleared := true, closed := true } rfl rfl
  have hflags : (rtRun (rtInit t0) (pre ++ [RTEvent.close])).1
      = { sp with intervalCleared := true, closed := true } := by
    rw [h1]
    simp [rtRun, hclose]
  refine ⟨?_, by rw [hflags], by rw [hflags]⟩
  rw [h1, h2]
  simp [rtRun, hclose, hhalt]

/-- C10: a timer fire more than one interval after the last media arrival
leaves the session state untouched and extracts nothing. -/
theorem claim10_silence_gap (s : RTState) (now : Nat)
    (h : now - s.lastChunkTime > INTERVAL) :
    rtStep s (RTEvent.timerFire now) = (s, []) := by
  by_cases h1 : s.intervalCleared <;> simp [rtStep, h, h1]

/-- Witness for C10: a fire at 4000 ms with the last chunk at 0 ms. -/
theorem claim10_silence_gap_witness :
    rtStep ⟨[[1]], 0, false, false⟩ (RTEvent.timerFire 4000)
      = (⟨[[1]], 0, false, false⟩, []) :=
  claim10_silence_gap ⟨[[1]], 0, false, false⟩ 4000 (by decide)

/-- C3 counterexample: in the stop-triggered variant a turn whose
transcription result is empty does not abort silently — the handler throws
the empty-transcription error, and the catch block sends the fallback media
event followed by a stop event. -/
theorem claim3_counterexample :
    (runWsStop svcEmptyTranscript [0]).sent
      = [OutEvent.media (base64Encode (strBytes apology)), OutEvent.stop "internal_error"]
    ∧ (runWsStop svcEmptyTranscript [0]).sent ≠ [] := by
  exact ⟨rfl, by decide⟩

/-- C3 amended: an empty or whitespace-only transcript never reaches the
completion or synthesis service in either variant; in the time-windowed
variant the turn aborts silently with no outbound event, while in the
stop-triggered variant the empty transcript is treated as a pipeline
failure and the fallback media and stop events are sent; in both the socket
stays open for further segments. -/
theorem claim3_empty_transcript (svc : Services) (chunk raw : Bytes) (t u : String)
    (hchunk : svc.transcribe chunk = Except.ok t) (ht : isBlank t = true)
    (hraw : svc.transcribe raw = Except.ok u) (hu : isBlank u = true) :
    ((processBufferPipeline svc chunk).calledComplete = false
      ∧ (processBufferPipeline svc chunk).calledSynthesize = false
      ∧ (processBufferPipeline svc chunk).sent = [])
    ∧ ((runWsStop svc raw).calledComplete = false
      ∧ (runWsStop svc raw).calledSynthesize = false
      ∧ (runWsStop svc raw).sent = wsFallback
      ∧ (runWsStop svc raw).socketClosed = false) := by
  constructor
  · by_cases hlen : chunk.length < MIN_AUDIO_LENGTH
    · have hpb : processBufferPipeline svc chunk
          = ⟨false, false, false, [], false, true⟩ := by
        unfold processBufferPipeline
        rw [if_pos hlen]
      rw [hpb]
      exact ⟨rfl, rfl, rfl⟩
    · have hpb : processBufferPipeline svc chunk
          = ⟨true, false, false, [], true, true⟩ := by
        unfold processBufferPipeline
        rw [if_neg hlen, hchunk]
        dsimp only
        rw [if_pos ht]
      rw [hpb]
      exact ⟨rfl, rfl, rfl⟩
  · have hws : runWsStop svc raw = ⟨false, false, wsFallback, true, false⟩ := by
      unfold runWsStop
      rw [hraw]
      dsimp only
      rw [if_pos hu]
    rw [hws]
    exact ⟨rfl, rfl, rfl, rfl⟩

/-- Witness for C3 amended with the empty-transcript service. -/
theorem claim3_empty_transcript_witness :
    ((processBufferPipeline svcEmptyTranscript [5]).calledComplete = false
      ∧ (processBufferPipeline svcEmptyTranscript [5]).calledSynthesize = false
      ∧ (processBufferPipeline svcEmptyTranscript [5]).sent = [])
    ∧ ((runWsStop svcEmptyTranscript [6]).calledComplete = false
      ∧ (runWsStop svcEmptyTranscript [6]).calledSynthesize = false
      ∧ (runWsStop svcEmptyTranscript [6]).sent = wsFallback
      ∧ (runWsStop svcEmptyTranscript [6]).socketClosed = false) :=
  claim3_empty_transcript svcEmptyTranscript [5] [6] "" "" rfl (by decide) rfl (by decide)

/-- C4 counterexample: in the time-windowed variant an empty completion
reply is not checked — the synthesis service is called with it and the turn
ends as a silent success sending the synthesized media, never reporting a
failure. -/
theorem claim4_counterexample :
    (processBufferPipeline svcEmptyReply (List.replicate 8000 0)).calledSynthesize = true
    ∧ (processBufferPipeline svcEmptyReply (List.replicate 8000 0)).sent
        = [OutEvent.media (base64Encode [7])] := by
  have hpb : processBufferPipeline svcEmptyReply (List.replicate 8000 0)
      = ⟨true, true, true, [OutEvent.media (base64Encode [7])], true, true⟩ := by
    unfold processBufferPipeline
    rw [if_neg (by rw [List.length_replicate]; decide)]
    show (if isBlank "hello" = true then _ else _) = _
    rw [if_neg (by decide)]
    rfl
  rw [hpb]
  exact ⟨rfl, rfl⟩

/-- C4 amended: in the stop-triggered variant an empty completion reply
never calls synthesis and reports the pipeline failure via the fallback
events; the time-windowed variant has no emptiness check and calls the
synthesis service on the empty reply. -/
theorem claim4_empty_reply (svc : Services) (raw chunk : Bytes) (t u : String)
    (hraw : svc.transcribe raw = Except.ok t) (ht : ¬ isBlank t = true)
    (hrep : svc.complete t = Except.ok "")
    (hlen : MIN_AUDIO_LENGTH ≤ chunk.length)
    (hchunk : svc.transcribe chunk = Except.ok u) (hu : ¬ isBlank u = true)
    (hrepu : svc.complete u = Except.ok "") :
    ((runWsStop svc raw).calledSynthesize = false
      ∧ (runWsStop svc raw).sent = wsFallback)
    ∧ (processBufferPipeline svc chunk).calledSynthesize = true := by
  constructor
  · have hws : runWsStop svc raw = ⟨true, false, wsFallback, true, false⟩ := by
      unfold runWsStop
      rw [hraw]
      dsimp only
      rw [if_neg ht, hrep]
      dsimp only
      rw [if_pos (show isBlank "" = true by decide)]
    rw [hws]
    exact ⟨rfl, rfl⟩
  · unfold processBufferPipeline
    rw [if_neg (by omega), hchunk]
    dsimp only
    rw [if_neg hu, hrepu]
    dsimp only
    cases svc.synthesize "" <;> rfl

/-- Witness for C4 amended with the empty-reply service. -/
theorem claim4_empty_reply_witness :
    (((runWsStop svcEmptyReply [1]).calledSynthesize = false
      ∧ (runWsStop svcEmptyReply [1]).sent = wsFallback)
    ∧ (processBufferPipeline svcEmptyReply (List.replicate 8000 0)).calledSynthesize = true) :=
  claim4_empty_reply svcEmptyReply [1] (List.replicate 8000 0) "hello" "hello"
    rfl (by decide) rfl (by rw [List.length_replicate]; decide) rfl (by decide) rfl

/-- The success condition of one stop-triggered turn: every stage returns a
usable value. -/
def wsSuccess (svc : Services) (raw : Bytes) : Prop :=
  ∃ t r audio, svc.transcribe raw = Except.ok t ∧ isBlank t = false
    ∧ svc.complete t = Except.ok r ∧ isBlank r = false
    ∧ svc.synthesize r = Except.ok audio ∧ audio.length ≠ 0

/-- C5: whenever any pipeline stage of a stop-triggered turn fails — a
rejected call, an empty transcript, an empty reply, or a zero-length
synthesis result — the turn emits the fallback media event carrying the
base64-encoded apology text followed by a stop event with reason
internal_error, and the socket is not closed. -/
theorem claim5_fallback (svc : Services) (raw : Bytes) (h : ¬ wsSuccess svc raw) :
    (runWsStop svc raw).sent
      = [OutEvent.media (base64Encode (strBytes apology)), OutEvent.stop "internal_error"]
    ∧ (runWsStop svc raw).socketClosed = false := by
  unfold runWsStop
  cases htr : svc.transcribe raw with
  | error e => exact ⟨rfl, rfl⟩
  | ok t =>
      dsimp only
      by_cases ht : isBlank t = true
      · rw [if_pos ht]
        exact ⟨rfl, rfl⟩
      · rw [if_neg ht]
        cases hc : svc.complete t with
        | error e => exact ⟨rfl, rfl⟩
        | ok r =>
            dsimp only
            by_cases hr : isBlank r = true
            · rw [if_pos hr]
              exact ⟨rfl, rfl⟩
            · rw [if_neg hr]
              cases hs : svc.synthesize r with
              | error e => exact ⟨rfl, rfl⟩
              | ok audio =>
                  dsimp only
                  by_cases ha : audio.length = 0
                  · rw [if_pos ha]
                    exact ⟨rfl, rfl⟩
                  · have ht' : isBlank t = false := by simpa using ht
                    have hr' : isBlank r = false := by simpa using hr
                    exact absurd ⟨t, r, audio, htr, ht', hc, hr', hs, ha⟩ h

/-- Witness for C5 at the zero-length-synthesis scenario of the spec. -/
theorem claim5_fallback_witness :
    (runWsStop svcZeroTTS [0]).sent
      = [OutEvent.media (base64Encode (strBytes apology)), OutEvent.stop "internal_error"]
    ∧ (runWsStop svcZeroTTS [0]).socketClosed = false :=
  claim5_fallback svcZeroTTS [0] (by
    rintro ⟨t, r, audio, h1, h2, h3, h4, h5, h6⟩
    simp_all [svcZeroTTS])

/-- C6 counterexample: in the minimal stop-triggered variant a failed
transcription call leaves the temporary file behind — cleanup runs only
after a fully successful turn. -/
theorem claim6_counterexample :
    (runP000Stop svcTranscribeError [1]).fileAbsent = false
    ∧ (runP000Stop svcTranscribeError [1]).crashed = true :=
  ⟨rfl, rfl⟩

/-- C6 amended: the variants with guaranteed cleanup remove the temporary
container file on every exit path — unconditionally in the main
stop-triggered variant and in the time-windowed variant — but the minimal
variant removes it exactly when the turn did not fail, so a failing turn
there leaks the file. -/
theorem claim6_temp_file_cleanup (svc : Services) (raw chunk p0 : Bytes) :
    (runWsStop svc raw).fileAbsent = true
    ∧ (processBufferPipeline svc chunk).fileAbsent = true
    ∧ (runP000Stop svc p0).fileAbsent = !(runP000Stop svc p0).crashed := by
  refine ⟨?_, ?_, ?_⟩
  · unfold runWsStop
    cases svc.transcribe raw with
    | error e => rfl
    | ok t =>
        dsimp only
        by_cases ht : isBlank t = true
        · rw [if_pos ht]
        · rw [if_neg ht]
          cases svc.complete t with
          | error e => rfl
          | ok r =>
              dsimp only
              by_cases hr : isBlank r = true
              · rw [if_pos hr]
              · rw [if_neg hr]
                cases svc.synthesize r with
                | error e => rfl
                | ok audio =>
                    dsimp only
                    by_cases ha : audio.length = 0
                    · rw [if_pos ha]
                    · rw [if_neg ha]
  · unfold processBufferPipeline
    by_cases hlen : chunk.length < MIN_AUDIO_LENGTH
    · rw [if_pos hlen]
    · rw [if_neg hlen]
      cases svc.transcribe chunk with
      | error e => rfl
      | ok t =>
          dsimp only
          by_cases ht : isBlank t = true
          · rw [if_pos ht]
          · rw [if_neg ht]
            cases svc.complete t with
            | error e => rfl
            | ok r =>
                dsimp only
                cases svc.synthesize r <;> rfl
  · unfold runP000Stop
    cases svc.transcribe p0 with
    | error e => rfl
    | ok t =>
        dsimp only
        cases svc.complete t with
        | error e => rfl
        | ok r =>
            dsimp only
            cases svc.synthesize r <;> rfl

/-- C7 counterexample: a syntactically valid JSON media message whose media
object is missing is not dropped-and-logged — the unguarded field access
throws out of the handler in the main variant; and in the minimal variant
even a non-JSON message throws. -/
theorem claim7_counterexample :
    wsHandleMessage (fun _ => []) [] (InboundMsg.parsed ⟨some "media", none⟩)
      = HandlerResult.uncaught
    ∧ p000HandleMessage (fun _ => []) [] InboundMsg.notJson = HandlerResult.uncaught
    ∧ HandlerResult.uncaught ≠ HandlerResult.droppedLogged := by
  exact ⟨rfl, rfl, by decide⟩

/-- C7 amended: non-JSON messages are dropped and logged only in the
variants that guard parsing — the main handler and the time-windowed
session step, which ignores a rejected message — while the minimal variant
throws out of the handler; a media message whose media object or payload
field is missing throws an uncaught error in both modelled handlers; and a
media message carrying any payload string is never dropped for its content:
the lenient decoder's bytes are appended to the buffer. -/
theorem claim7_malformed_input (decode : String → Bytes) (chunks : List Bytes)
    (s : String) (st : RTState) (now : Nat) :
    wsHandleMessage decode chunks InboundMsg.notJson = HandlerResult.droppedLogged
    ∧ rtStep st (RTEvent.msg now none) = (st, [])
    ∧ p000HandleMessage decode chunks InboundMsg.notJson = HandlerResult.uncaught
    ∧ wsHandleMessage decode chunks (InboundMsg.parsed ⟨some "media", none⟩)
        = HandlerResult.uncaught
    ∧ wsHandleMessage decode chunks (InboundMsg.parsed ⟨some "media", some ⟨none⟩⟩)
        = HandlerResult.uncaught
    ∧ p000HandleMessage decode chunks (InboundMsg.parsed ⟨some "media", some ⟨none⟩⟩)
        = HandlerResult.uncaught
    ∧ wsHandleMessage decode chunks (InboundMsg.parsed ⟨some "media", some ⟨some s⟩⟩)
        = HandlerResult.handled (chunks ++ [decode s])
    ∧ p000HandleMessage decode chunks (InboundMsg.parsed ⟨some "media", some ⟨some s⟩⟩)
        = HandlerResult.handled (chunks ++ [decode s]) := by
  refine ⟨rfl, ?_, rfl, rfl, rfl, rfl, rfl, rfl⟩
  by_cases hc : st.closed <;> simp [rtStep, hc]

/-- The number of samples the `Int16Array` view exposes is the floor of
half the byte count. -/
lemma pcmSamples_length : ∀ raw : Bytes, (pcmSamples raw).length = raw.length / 2
  | [] => rfl
  | [a] => by
      have h1 : pcmSamples [a] = [] := rfl
      rw [h1]
      simp
  | lo :: hi :: rest => by
      have ih := pcmSamples_length rest
      simp only [pcmSamples, List.length_cons, ih]
      omega

/-- C8 counterexample: a 3-byte (odd-length) input is not treated as an
error — the encoder succeeds, silently truncating the trailing byte and
producing only the sample of the first byte pair. -/
theorem claim8_counterexample :
    saveWavFile [0, 128, 7] = Except.ok [(-1 : ℚ)]
    ∧ ([0, 128, 7] : Bytes).length % 2 = 1 := by
  constructor
  · simp only [saveWavFile]
    norm_num [pcmSamples, toInt16]
  · rfl

/-- C8 amended: the container encoder is a pure total function with no
failure mode at all: for every input — odd byte count included — it
succeeds, encoding exactly one sample per full byte pair, so the trailing
byte of an odd-length input is silently truncated rather than reported as
an error. -/
theorem claim8_truncation (raw : Bytes) :
    saveWavFile raw = Except.ok ((pcmSamples raw).map fun v => (v : ℚ) / 32768)
    ∧ (pcmSamples raw).length = raw.length / 2 := by
  constructor
  · simp only [saveWavFile]
    rw [if_neg (by omega)]
  · exact pcmSamples_length raw

end AutoSalesCall
